import Mathlib

/-!
Verification of the topic-based Telegram/WhatsApp bridging engine
(`src/telegram.js`) against its natural-language specification.

The JavaScript module is shallowly embedded: the mutable module-level maps
(`topicMapping`, `reverseTopicMapping`, `contactsCache`) become an explicit
`RegState` record threaded through the functions; the Telegram client and
the external ffmpeg process become oracles (`Nat → CreateOutcome`,
`TEnv`, send outcomes) supplied as parameters; JavaScript object lookup and
`delete` become association-list operations with the same observable
lookup semantics; JavaScript truthiness tests (`if (x)`) on strings and
numbers are modelled explicitly (`""` and `0` are falsy).
-/

namespace HyperWA

/-! ### Association-list maps (JS plain-object semantics) -/

def lookupKV {α β : Type} [DecidableEq α] (k : α) : List (α × β) → Option β
  | [] => none
  | (k', v) :: rest => if k = k' then some v else lookupKV k rest

def removeKey {α β : Type} [DecidableEq α] (k : α) (l : List (α × β)) : List (α × β) :=
  l.filter (fun p => if p.1 = k then false else true)

def insertKV {α β : Type} [DecidableEq α] (k : α) (v : β) (l : List (α × β)) : List (α × β) :=
  (k, v) :: removeKey k l

theorem lookupKV_removeKey_self {α β : Type} [DecidableEq α] (l : List (α × β)) (k : α) :
    lookupKV k (removeKey k l) = none := by
  induction l with
  | nil => rfl
  | cons p rest ih =>
    by_cases h : p.1 = k
    · simp [removeKey, List.filter, h] at ih ⊢
      exact ih
    · simp only [removeKey, List.filter, if_neg h]
      simpa [removeKey, lookupKV, Ne.symm h] using ih

theorem lookupKV_removeKey_ne {α β : Type} [DecidableEq α] (l : List (α × β)) (k k' : α)
    (h : k' ≠ k) : lookupKV k' (removeKey k l) = lookupKV k' l := by
  induction l with
  | nil => rfl
  | cons p rest ih =>
    by_cases hp : p.1 = k
    · simp only [removeKey, List.filter, if_pos hp] at ih ⊢
      rw [ih]
      have : ¬ k' = p.1 := by rw [hp]; exact h
      cases p with
      | mk a b => simp_all [lookupKV]
    · cases p with
      | mk a b =>
        simp only [removeKey, List.filter] at ih ⊢
        simp only at hp
        rw [if_neg hp]
        by_cases hk : k' = a
        · simp [lookupKV, hk]
        · simp only [lookupKV, if_neg hk]
          simpa [removeKey] using ih

theorem lookupKV_insertKV_self {α β : Type} [DecidableEq α] (l : List (α × β)) (k : α) (v : β) :
    lookupKV k (insertKV k v l) = some v := by
  simp [insertKV, lookupKV]

theorem lookupKV_insertKV_ne {α β : Type} [DecidableEq α] (l : List (α × β)) (k k' : α) (v : β)
    (h : k' ≠ k) : lookupKV k' (insertKV k v l) = lookupKV k' l := by
  simp only [insertKV, lookupKV, if_neg h]
  exact lookupKV_removeKey_ne l k k' h

theorem lookupKV_removeKey_none {α β : Type} [DecidableEq α] (l : List (α × β)) (k k' : α)
    (h : lookupKV k' l = none) : lookupKV k' (removeKey k l) = none := by
  by_cases hk : k' = k
  · subst hk; exact lookupKV_removeKey_self l k'
  · rw [lookupKV_removeKey_ne l k k' hk]; exact h

/-! ### String helpers mirroring the JS string tests -/

def startsWithChars : List Char → List Char → Bool
  | [], _ => true
  | _ :: _, [] => false
  | p :: ps, c :: cs => p == c && startsWithChars ps cs

def hasSubChars (pat : List Char) : List Char → Bool
  | [] => pat.isEmpty
  | c :: cs => startsWithChars pat (c :: cs) || hasSubChars pat cs

/-- JS `s.includes(pat)`. -/
def containsStr (s pat : String) : Bool := hasSubChars pat.data s.data

/-- JS `s.startsWith(pre)`. -/
def strStarts (pre s : String) : Bool := startsWithChars pre.data s.data

/-- JS `ts.toString().slice(-4)`: the last four characters. -/
def last4 (s : String) : String := String.mk (s.data.drop (s.data.length - 4))

/-- JS truthiness of a string: `""` is falsy. -/
def strTruthy (s : String) : Bool := if s = "" then false else true

/-- JS truthiness of a number: `0` is falsy. -/
def natTruthy (n : Nat) : Bool := if n = 0 then false else true

/-- Error classification used by the duplicate-name retry in `getOrCreateTopic`
(`error.message.includes("duplicate") || error.message.includes("already exists")`). -/
def dupClass (e : String) : Bool := containsStr e "duplicate" || containsStr e "already exists"

/-- Error classification used by the topic-recreation retry in
`sendToTelegramWithRetry` (`error.message.includes("thread") ||
error.message.includes("topic") || error.message.includes("not found")`). -/
def threadMissingClass (e : String) : Bool :=
  containsStr e "thread" || containsStr e "topic" || containsStr e "not found"

/-! ### Topic registry state and configuration -/

/-- The module-level mutable maps of `telegram.js` relevant to the registry:
`topicMapping` (identifier → thread id), `reverseTopicMapping`
(thread id → identifier) and `contactsCache` (number → contact name). -/
structure RegState where
  topicMapping : List (String × Nat)
  reverseTopicMapping : List (Nat × String)
  contactsCache : List (String × String)
deriving Repr, DecidableEq

/-- The configuration bits consulted by `getOrCreateTopic`:
`config.telegram.createTopics` and whether `telegramBot` is non-null. -/
structure TgConfig where
  createTopics : Bool
  botReady : Bool
deriving Repr, DecidableEq

/-- Outcome of one `telegramBot.createForumTopic` call: a thrown error, or a
result whose `message_thread_id` may be absent (`ok none` also covers a falsy
result object). -/
inductive CreateOutcome where
  | ok (res : Option Nat)
  | err (msg : String)
deriving Repr, DecidableEq

/-- JS truthiness of `result && result.message_thread_id`: a missing or zero
thread id is falsy. -/
def tidOk : Option Nat → Option Nat
  | some t => if t = 0 then none else some t
  | none => none

/-- Model of `getContactName(whatsappNumber, fallbackName)`: returns the cached name if
truthy, otherwise `fallbackName || "Contact " ++ number` and caches it.
Returns the name together with the updated cache. -/
def getContactName (cache : List (String × String)) (number fallback : String) :
    String × List (String × String) :=
  let fresh := if fallback = "" then "Contact " ++ number else fallback
  match lookupKV number cache with
  | some n => if n = "" then (fresh, insertKV number fresh cache) else (n, cache)
  | none => (fresh, insertKV number fresh cache)

/-- JS `identifier.startsWith("group_")`. -/
def isGroupIdent (i : String) : Bool := strStarts "group_" i

/-- Result of `getOrCreateTopic`: the returned thread id (or null), the
registry state after the call, and the topic names passed to the
`createForumTopic` calls it made, in order. -/
structure GocResult where
  threadId : Option Nat
  state : RegState
  createNames : List String
deriving Repr, DecidableEq

/-- Insertion performed on creation success:
`topicMapping[identifier] = tid; reverseTopicMapping[tid] = identifier`. -/
def insertMapping (st : RegState) (i : String) (t : Nat) : RegState :=
  { st with topicMapping := insertKV i t st.topicMapping,
            reverseTopicMapping := insertKV t i st.reverseTopicMapping }

/-- The pair of deletions performed before recreation in
`sendToTelegramWithRetry`:
`delete topicMapping[identifier]; delete reverseTopicMapping[tid]`. -/
def invalidateMapping (st : RegState) (i : String) (t : Nat) : RegState :=
  { st with topicMapping := removeKey i st.topicMapping,
            reverseTopicMapping := removeKey t st.reverseTopicMapping }

/-- First topic name tried by `getOrCreateTopic`: `displayName` for groups,
`` `${cleanContactName} (+${identifier})` `` for individuals (together with
the contacts cache after the `getContactName` call). -/
def topicNamePair (st : RegState) (identifier displayName : String) :
    String × List (String × String) :=
  if isGroupIdent identifier then (displayName, st.contactsCache)
  else
    let cn := getContactName st.contactsCache identifier displayName
    (cn.1 ++ " (+" ++ identifier ++ ")", cn.2)

/-- Disambiguated topic name used by the duplicate-name retry:
`` `${displayName} (${timestamp})` `` for groups,
`` `${cleanContactName} (+${identifier}) ${timestamp}` `` for individuals. -/
def topicNamePairRetry (st : RegState) (identifier displayName ts : String) :
    String × List (String × String) :=
  if isGroupIdent identifier then (displayName ++ " (" ++ ts ++ ")", st.contactsCache)
  else
    let cn := getContactName st.contactsCache identifier displayName
    (cn.1 ++ " (+" ++ identifier ++ ") " ++ ts, cn.2)

/-- The creation part of `getOrCreateTopic` (its `try`/`catch` body): first
`createForumTopic` call, and on a duplicate-name class of error exactly one
retry with a timestamp-suffixed name; on success both map entries are
inserted; on anything else the result is null. -/
def gocCreate (creat : Nat → CreateOutcome) (now : Nat)
    (st : RegState) (identifier displayName : String) : GocResult :=
  let p1 := topicNamePair st identifier displayName
  let st1 : RegState := { st with contactsCache := p1.2 }
  match creat 0 with
  | .ok res =>
    match tidOk res with
    | some t => ⟨some t, insertMapping st1 identifier t, [p1.1]⟩
    | none => ⟨none, st1, [p1.1]⟩
  | .err e =>
    if dupClass e then
      let p2 := topicNamePairRetry st1 identifier displayName (last4 (Nat.repr now))
      let st2 : RegState := { st1 with contactsCache := p2.2 }
      match creat 1 with
      | .ok res2 =>
        match tidOk res2 with
        | some t => ⟨some t, insertMapping st2 identifier t, [p1.1, p2.1]⟩
        | none => ⟨none, st2, [p1.1, p2.1]⟩
      | .err _ => ⟨none, st2, [p1.1, p2.1]⟩
    else ⟨none, st1, [p1.1]⟩

/-- Model of `getOrCreateTopic(identifier, displayName)`: returns null when topic
creation is disabled or the bot is missing; otherwise returns the mapped
thread id if truthy; otherwise runs the creation path `gocCreate`.
`creat k` is the outcome of the `k`-th `createForumTopic` call of this
invocation; `now` is `Date.now()`. -/
def getOrCreateTopic (cfg : TgConfig) (creat : Nat → CreateOutcome) (now : Nat)
    (st : RegState) (identifier displayName : String) : GocResult :=
  if ¬(cfg.createTopics && cfg.botReady) then ⟨none, st, []⟩
  else match tidOk (lookupKV identifier st.topicMapping) with
  | some t => ⟨some t, st, []⟩
  | none => gocCreate creat now st identifier displayName

/-- Result of `sendToTelegramWithRetry`: the returned message id or thrown
error, the registry state afterwards, and the `message_thread_id` targeted by
each `sendMessage` attempt, in order. -/
structure SendRetryResult where
  result : Except String Nat
  state : RegState
  attempts : List (Option Nat)
deriving Repr

/-- Model of `sendToTelegramWithRetry(chatId, message, options, identifier, displayName)`.
`send1`/`send2` are the outcomes of the first and (potential) second
`telegramBot.sendMessage` call; `threadId` is `options.message_thread_id`;
`identifier`/`displayName` are the optional trailing arguments. -/
def sendToTelegramWithRetry (cfg : TgConfig) (creat : Nat → CreateOutcome) (now : Nat)
    (send1 send2 : Except String Nat) (st : RegState)
    (threadId : Option Nat) (identifier displayName : Option String) : SendRetryResult :=
  match send1 with
  | .ok m => ⟨.ok m, st, [threadId]⟩
  | .error e =>
    match identifier, displayName, threadId with
    | some i, some d, some tid =>
      if strTruthy i && strTruthy d && natTruthy tid && threadMissingClass e then
        let st1 := invalidateMapping st i tid
        let g := getOrCreateTopic cfg creat now st1 i d
        match g.threadId with
        | some newTid =>
          if natTruthy newTid then
            match send2 with
            | .ok m => ⟨.ok m, g.state, [threadId, some newTid]⟩
            | .error e2 => ⟨.error e2, g.state, [threadId, some newTid]⟩
          else ⟨.error e, g.state, [threadId]⟩
        | none => ⟨.error e, g.state, [threadId]⟩
      else ⟨.error e, st, [threadId]⟩
    | _, _, _ => ⟨.error e, st, [threadId]⟩

/-! ### Media transcoding pipeline with scratch-file tracking -/

/-- Oracle for one external-transcoder invocation: whether `fs.writeFileSync`
succeeds, whether `execSync` returns normally, the bytes of the produced
output file (`none` = no readable output, so `readFileSync` throws), and
whether a failing `execSync` left a partial output file behind. -/
structure TEnv where
  writeOk : Bool
  execOk : Bool
  output : Option (List Nat)
  partialOut : Bool
deriving Repr, DecidableEq

/-- Result of one conversion call: the returned bytes or thrown error, the
file set afterwards, and whether the external process was invoked. -/
structure ConvResult where
  result : Except String (List Nat)
  fs : List String
  execCalled : Bool
deriving Repr

/-- Model of `fs.unlinkSync(n)` (all occurrences of the name are removed). -/
def fsRemove (n : String) : List String → List String
  | [] => []
  | m :: rest => if m = n then fsRemove n rest else m :: fsRemove n rest

/-- Model of `fs.existsSync(n)`. -/
def fsHas (n : String) : List String → Bool
  | [] => false
  | m :: rest => if m = n then true else fsHas n rest

/-- The shared `catch` cleanup:
`if (fs.existsSync(inputFile)) fs.unlinkSync(inputFile);
 if (fs.existsSync(outputFile)) fs.unlinkSync(outputFile)`. -/
def catchClean (inN outN : String) (fs : List String) : List String :=
  let fs1 := if fsHas inN fs then fsRemove inN fs else fs
  if fsHas outN fs1 then fsRemove outN fs1 else fs1

/-- Model of `convertAnimatedWebPToMP4(webpBuffer)`: throws if ffmpeg is unavailable;
otherwise writes the scratch input, runs ffmpeg, reads the output, unlinks
both scratch files and returns the bytes; on any failure unlinks whatever
scratch files exist and rethrows. `inN`/`outN` are the unique scratch file
names of this call, `fs` the set of files existing beforehand. -/
def convertAnimatedWebPToMP4 (ffmpeg : Bool) (env : TEnv) (buf : List Nat)
    (inN outN : String) (fs : List String) : ConvResult :=
  if ¬ffmpeg then
    ⟨.error "FFmpeg not available for animated sticker conversion", fs, false⟩
  else if ¬env.writeOk then
    ⟨.error "write failed", catchClean inN outN fs, false⟩
  else
    let fs1 := inN :: fs
    if ¬env.execOk then
      let fs1' := if env.partialOut then outN :: fs1 else fs1
      ⟨.error "ffmpeg failed", catchClean inN outN fs1', true⟩
    else match env.output with
    | none => ⟨.error "read failed", catchClean inN outN fs1, true⟩
    | some b =>
      let fs2 := outN :: fs1
      ⟨.ok b, fsRemove outN (fsRemove inN fs2), true⟩

/-- Model of `convertTelegramStickerToWebP(stickerBuffer, isAnimated)`: throws when the
sticker is animated and ffmpeg is unavailable; otherwise the same
write/exec/read/cleanup discipline as the MP4 conversion (only the ffmpeg
filter arguments differ between the animated and static branches). -/
def convertTelegramStickerToWebP (ffmpeg isAnimated : Bool) (env : TEnv) (buf : List Nat)
    (inN outN : String) (fs : List String) : ConvResult :=
  if ¬ffmpeg && isAnimated then
    ⟨.error "FFmpeg not available for animated sticker conversion", fs, false⟩
  else if ¬env.writeOk then
    ⟨.error "write failed", catchClean inN outN fs, false⟩
  else
    let fs1 := inN :: fs
    if ¬env.execOk then
      let fs1' := if env.partialOut then outN :: fs1 else fs1
      ⟨.error "ffmpeg failed", catchClean inN outN fs1', true⟩
    else match env.output with
    | none => ⟨.error "read failed", catchClean inN outN fs1, true⟩
    | some b =>
      let fs2 := outN :: fs1
      ⟨.ok b, fsRemove outN (fsRemove inN fs2), true⟩

/-- Model of `convertToVideoNote(videoBuffer)`: returns the input unchanged when ffmpeg
is unavailable; on any conversion failure cleans up scratch files and returns
the original bytes (its `catch` returns `videoBuffer` instead of rethrowing);
only on success returns the converted bytes. -/
def convertToVideoNote (ffmpeg : Bool) (env : TEnv) (buf : List Nat)
    (inN outN : String) (fs : List String) : ConvResult :=
  if ¬ffmpeg then ⟨.ok buf, fs, false⟩
  else if ¬env.writeOk then ⟨.ok buf, catchClean inN outN fs, false⟩
  else
    let fs1 := inN :: fs
    if ¬env.execOk then
      let fs1' := if env.partialOut then outN :: fs1 else fs1
      ⟨.ok buf, catchClean inN outN fs1', true⟩
    else match env.output with
    | none => ⟨.ok buf, catchClean inN outN fs1, true⟩
    | some b =>
      let fs2 := outN :: fs1
      ⟨.ok b, fsRemove outN (fsRemove inN fs2), true⟩

/-! ### The sticker branch of `forwardToTelegram` -/

/-- Destination payload kind sent for a forwarded sticker. -/
inductive PayloadKind where
  | animationP
  | stickerP
  | photoP
deriving Repr, DecidableEq

/-- Oracle for the sticker branch: the transcoder environment plus the
success of the `sendAnimation`, `sendSticker` and `sendPhoto` calls. -/
structure StickerSendEnv where
  tenv : TEnv
  sendAnimationOk : Bool
  sendStickerOk : Bool
  sendPhotoOk : Bool
deriving Repr, DecidableEq

/-- Result of the sticker branch: payload kind actually delivered (or the
escaping error), the file set, and whether the external transcoder ran. -/
structure BranchResult where
  result : Except String PayloadKind
  fs : List String
  execCalled : Bool
deriving Repr

/-- The `catch (stickerError)` handler: send the raw bytes as a photo; a
failure of this send escapes the sticker branch. -/
def photoFallback (env : StickerSendEnv) (fs : List String) (ec : Bool) : BranchResult :=
  if env.sendPhotoOk then ⟨.ok .photoP, fs, ec⟩ else ⟨.error "photo send failed", fs, ec⟩

/-- The sticker-handling branch of `forwardToTelegram`
(`if (m.type === "stickerMessage" || ...)`): an animated sticker is converted
to MP4 and sent as an animation only when ffmpeg is available; otherwise the
raw buffer is sent with `sendSticker`; any error in the branch is caught and
the buffer is sent as a plain photo. -/
def forwardStickerBranch (ffmpeg isAnimated : Bool) (env : StickerSendEnv)
    (buf : List Nat) (inN outN : String) (fs : List String) : BranchResult :=
  if isAnimated && ffmpeg then
    let c := convertAnimatedWebPToMP4 ffmpeg env.tenv buf inN outN fs
    match c.result with
    | .ok _ =>
      if env.sendAnimationOk then ⟨.ok .animationP, c.fs, c.execCalled⟩
      else photoFallback env c.fs c.execCalled
    | .error _ => photoFallback env c.fs c.execCalled
  else
    if env.sendStickerOk then ⟨.ok .stickerP, fs, false⟩
    else photoFallback env fs false

/-! ### Inbound Telegram message handling (`handleTelegramMessage`) -/

/-- The fields of an inbound Telegram message consulted by the routing
logic of `handleTelegramMessage`. -/
structure TgMsg where
  chatId : Int
  fromIsBot : Bool
  threadId : Option Nat
  replyToId : Option Nat
  text : Option String
  caption : Option String
deriving Repr, DecidableEq

/-- Externally visible actions taken by `handleTelegramMessage`. -/
inductive TgAction where
  | waStatusReaction (sender : String) (emoji : Char)
  | tgReact (ok : Bool)
  | hintMessage
  | forwardToWA (identifier : String)
deriving Repr, DecidableEq

/-- JS `a || b || dflt` over optional strings (empty strings are falsy). -/
def jsOr (a b : Option String) (dflt : String) : String :=
  match a with
  | some s =>
    if strTruthy s then s
    else match b with
      | some t => if strTruthy t then t else dflt
      | none => dflt
  | none =>
    match b with
    | some t => if strTruthy t then t else dflt
    | none => dflt

/-- Model of `handleTelegramMessage(msg)`: drops messages outside the configured group,
from bots, or outside any topic; in the status topic either relays a reply as
a WhatsApp status reaction (when the replied-to message is tracked in
`statusMessageMapping`) or sends a usage hint; drops call-topic messages; and
otherwise forwards tracked-topic messages to the mapped WhatsApp identifier.
The reply-to-WhatsApp tail of the function (contact, location, media and text
sends) is summarised by the single `forwardToWA` action. -/
def handleTelegramMessage (groupId : Int) (statusTid callTid : Option Nat)
    (statusMap : List (Nat × String)) (revMap : List (Nat × String))
    (waBotReady waSendOk : Bool) (msg : TgMsg) : List TgAction :=
  if ¬(msg.chatId = groupId) then []
  else if msg.fromIsBot then []
  else match msg.threadId with
  | none => []
  | some tid =>
    if statusTid = some tid then
      match msg.replyToId with
      | some rid =>
        match lookupKV rid statusMap with
        | some info =>
          if strTruthy info then
            let sender := (info.splitOn "_").headD ""
            let replyText := jsOr msg.text msg.caption "👍"
            let emoji := match replyText.data with | c :: _ => c | [] => '?'
            if waBotReady then
              if waSendOk then [.waStatusReaction sender emoji, .tgReact true]
              else [.waStatusReaction sender emoji, .tgReact false]
            else []
          else [.hintMessage]
        | none => [.hintMessage]
      | none => [.hintMessage]
    else if callTid = some tid then []
    else
      match lookupKV tid revMap with
      | none => []
      | some ident => [.forwardToWA ident]

/-! ### Phone-number normalization in `forwardToTelegram` -/

/-- The character class kept by the regex replacement
`whatsappNumber.replace(/[^\d+]/g, "")`. -/
def keepDigitPlus (c : Char) : Bool := c.isDigit || c == '+'

/-- The individual-chat identifier derivation: strip every character that is
neither a digit nor `'+'`, then strip a single leading `'+'`. -/
def normalizeChars (l : List Char) : List Char :=
  match l.filter keepDigitPlus with
  | c :: rest => if c = '+' then rest else c :: rest
  | [] => []

/-- Model of `forwardToTelegram`'s sender normalization, on strings. -/
def normalizePhone (s : String) : String := String.mk (normalizeChars s.data)

/-! ### Registry invariants -/

/-- The spec's inverse invariant: `topicMapping` and `reverseTopicMapping`
are strict inverses as partial functions. -/
def RegInv (st : RegState) : Prop :=
  (∀ i t, lookupKV i st.topicMapping = some t → lookupKV t st.reverseTopicMapping = some i) ∧
  (∀ t i, lookupKV t st.reverseTopicMapping = some i → lookupKV i st.topicMapping = some t)

/-- Environment assumption on thread creation: every thread id the
destination surface hands out is fresh, i.e. not already a key of the
reverse map. -/
def FreshCreat (creat : Nat → CreateOutcome) (st : RegState) : Prop :=
  ∀ k res t, creat k = .ok res → tidOk res = some t →
    lookupKV t st.reverseTopicMapping = none

/-! ### Helper lemmas -/

theorem tidOk_some_iff (o : Option Nat) (t : Nat) :
    tidOk o = some t ↔ o = some t ∧ t ≠ 0 := by
  constructor
  · intro he
    cases o with
    | none => exact absurd he (by simp [tidOk])
    | some n =>
      by_cases h : n = 0
      · rw [h] at he
        exact absurd he (by simp [tidOk])
      · have hs : some n = some t := by simpa [tidOk, h] using he
        have hn : n = t := Option.some.inj hs
        exact ⟨by rw [hn], by omega⟩
  · rintro ⟨ho, ht⟩
    subst ho
    simp [tidOk, ht]

theorem fsHas_fsRemove_self (n : String) (fs : List String) :
    fsHas n (fsRemove n fs) = false := by
  induction fs with
  | nil => rfl
  | cons m rest ih =>
    by_cases h : m = n
    · simp [fsRemove, h, ih]
    · simp [fsRemove, fsHas, h, ih]

theorem fsHas_fsRemove_of_not (n m : String) (fs : List String)
    (h : fsHas n fs = false) : fsHas n (fsRemove m fs) = false := by
  induction fs with
  | nil => rfl
  | cons a rest ih =>
    by_cases ha : a = n
    · simp [fsHas, ha] at h
    · simp only [fsHas, if_neg ha] at h
      by_cases hm : a = m
      · simp [fsRemove, hm, ih h]
      · simp [fsRemove, hm, fsHas, ha, ih h]

theorem fsHas_catchClean_in (inN outN : String) (fs : List String) :
    fsHas inN (catchClean inN outN fs) = false := by
  unfold catchClean
  cases h1 : fsHas inN fs with
  | true =>
    have hin := fsHas_fsRemove_self inN fs
    cases h2 : fsHas outN (fsRemove inN fs) with
    | true => simp [h1, h2, fsHas_fsRemove_of_not inN outN _ hin]
    | false => simp [h1, h2, hin]
  | false =>
    cases h2 : fsHas outN fs with
    | true => simp [h1, h2, fsHas_fsRemove_of_not inN outN _ h1]
    | false => simp [h1, h2]

theorem fsHas_catchClean_out (inN outN : String) (fs : List String) :
    fsHas outN (catchClean inN outN fs) = false := by
  unfold catchClean
  cases h1 : fsHas inN fs with
  | true =>
    cases h2 : fsHas outN (fsRemove inN fs) with
    | true => simp [h1, h2, fsHas_fsRemove_self outN (fsRemove inN fs)]
    | false => simp [h1, h2]
  | false =>
    cases h2 : fsHas outN fs with
    | true => simp [h1, h2, fsHas_fsRemove_self outN fs]
    | false => simp [h1, h2]

/-! ### C10 — disabled configuration short-circuits `getOrCreateTopic` -/

/-- Claim C10: If topic creation is disabled in configuration or the Telegram
bot is not initialized, `getOrCreateTopic` returns null immediately — even
when a forward-map entry for the identifier exists — leaving the registry
state untouched and issuing no thread-creation call. -/
theorem claim_C10_goc_disabled (cfg : TgConfig) (creat : Nat → CreateOutcome) (now : Nat)
    (st : RegState) (i d : String)
    (h : cfg.createTopics = false ∨ cfg.botReady = false) :
    getOrCreateTopic cfg creat now st i d = ⟨none, st, []⟩ := by
  have hb : (cfg.createTopics && cfg.botReady) = false := by
    rcases h with h | h <;> simp [h]
  simp [getOrCreateTopic, hb]

/-- Witness for C10: a state that already maps the identifier still gets
null back, unchanged, with no creation call. -/
theorem claim_C10_goc_disabled_witness :
    getOrCreateTopic ⟨false, true⟩ (fun _ => .ok (some 5)) 0
        ⟨[("15551234567", 9)], [(9, "15551234567")], []⟩ "15551234567" "Alice"
      = ⟨none, ⟨[("15551234567", 9)], [(9, "15551234567")], []⟩, []⟩ :=
  claim_C10_goc_disabled _ _ _ _ _ _ (Or.inl rfl)

/-! ### C7 — `convertToVideoNote` never raises -/

/-- Claim C7: The round-video-note conversion never throws: if ffmpeg is
unavailable or any stage of the external invocation fails, it returns the
original input bytes unchanged; only when every stage succeeds does it
return the converted bytes. -/
theorem claim_C7_videoNote_never_raises (ffmpeg : Bool) (env : TEnv) (buf : List Nat)
    (inN outN : String) (fs : List String) :
    (∃ out, (convertToVideoNote ffmpeg env buf inN outN fs).result = .ok out) ∧
    ((ffmpeg = false ∨ env.writeOk = false ∨ env.execOk = false ∨ env.output = none) →
      (convertToVideoNote ffmpeg env buf inN outN fs).result = .ok buf) ∧
    (∀ b, ffmpeg = true → env.writeOk = true → env.execOk = true → env.output = some b →
      (convertToVideoNote ffmpeg env buf inN outN fs).result = .ok b) := by
  obtain ⟨w, x, o, p⟩ := env
  cases ffmpeg <;> cases w <;> cases x <;> cases o <;>
    simp [convertToVideoNote]

/-- Witness for C7: a run whose exec stage fails returns the original bytes. -/
theorem claim_C7_videoNote_never_raises_witness :
    (convertToVideoNote true ⟨true, false, none, true⟩ [7, 7] "in.mp4" "out.mp4" []).result
      = .ok [7, 7] :=
  (claim_C7_videoNote_never_raises true ⟨true, false, none, true⟩ [7, 7]
    "in.mp4" "out.mp4" []).2.1 (Or.inr (Or.inr (Or.inl rfl)))

/-! ### C8 — scratch files never outlive a conversion call -/

/-- Claim C8: For each of the three conversion operations, under fresh scratch
names, no scratch file created by the call exists after the call completes,
on every exit path (success or failure). -/
theorem claim_C8_scratch_cleanup (ffmpeg isAnimated : Bool) (env : TEnv) (buf : List Nat)
    (inN outN : String) (fs : List String)
    (hIn : fsHas inN fs = false) (hOut : fsHas outN fs = false) :
    (fsHas inN (convertAnimatedWebPToMP4 ffmpeg env buf inN outN fs).fs = false ∧
     fsHas outN (convertAnimatedWebPToMP4 ffmpeg env buf inN outN fs).fs = false) ∧
    (fsHas inN (convertTelegramStickerToWebP ffmpeg isAnimated env buf inN outN fs).fs = false ∧
     fsHas outN (convertTelegramStickerToWebP ffmpeg isAnimated env buf inN outN fs).fs = false) ∧
    (fsHas inN (convertToVideoNote ffmpeg env buf inN outN fs).fs = false ∧
     fsHas outN (convertToVideoNote ffmpeg env buf inN outN fs).fs = false) := by
  obtain ⟨w, x, o, p⟩ := env
  have hsucc_in : ∀ fs' : List String,
      fsHas inN (fsRemove outN (fsRemove inN (outN :: inN :: fs'))) = false := by
    intro fs'
    exact fsHas_fsRemove_of_not inN outN _ (fsHas_fsRemove_self inN _)
  have hsucc_out : ∀ fs' : List String,
      fsHas outN (fsRemove outN (fsRemove inN (outN :: inN :: fs'))) = false := by
    intro fs'
    exact fsHas_fsRemove_self outN _
  cases ffmpeg <;> cases isAnimated <;> cases w <;> cases x <;> cases o <;> cases p <;>
    simp [convertAnimatedWebPToMP4, convertTelegramStickerToWebP, convertToVideoNote,
      fsHas_catchClean_in, fsHas_catchClean_out, hIn, hOut, hsucc_in, hsucc_out]

/-- Witness for C8: a concrete failing run of each converter leaves no
scratch file behind. -/
theorem claim_C8_scratch_cleanup_witness :
    fsHas "in" (convertAnimatedWebPToMP4 true ⟨true, false, none, true⟩ [1] "in" "out" ["x"]).fs
      = false ∧
    fsHas "out" (convertToVideoNote true ⟨true, true, none, false⟩ [1] "in" "out" ["x"]).fs
      = false := by
  have h1 := claim_C8_scratch_cleanup true false ⟨true, false, none, true⟩ [1] "in" "out" ["x"]
    (by decide) (by decide)
  have h2 := claim_C8_scratch_cleanup true false ⟨true, true, none, false⟩ [1] "in" "out" ["x"]
    (by decide) (by decide)
  exact ⟨h1.1.1, h2.2.2.2⟩

/-! ### C5 — phone-number normalization -/

theorem mem_of_mem_filter_keep (l : List Char) (c : Char)
    (hc : c ∈ l.filter keepDigitPlus) : c ∈ l ∧ keepDigitPlus c = true :=
  ⟨(List.mem_filter.mp hc).1, (List.mem_filter.mp hc).2⟩

theorem no_plus_filter_digits (l : List Char) (h : '+' ∉ l) :
    ∀ c ∈ l.filter keepDigitPlus, c.isDigit = true := by
  intro c hc
  obtain ⟨hcl, hk⟩ := mem_of_mem_filter_keep l c hc
  have hne : c ≠ '+' := fun he => h (he ▸ hcl)
  have hk' : c.isDigit = true ∨ c = '+' := by simpa [keepDigitPlus] using hk
  rcases hk' with hd | hp
  · exact hd
  · exact absurd hp hne

/-- The input-side condition under which the normalized identifier is pure
digits: every `'+'` in the address is preceded only by characters that the
regex drops (so at most one `'+'` survives, at the front). -/
def PlusOnlyLeading (l : List Char) : Prop :=
  ∀ l1 l2, l = l1 ++ '+' :: l2 → ∀ c ∈ l1, keepDigitPlus c = false

def hasPlusChar : List Char → Bool
  | [] => false
  | c :: rest => if c = '+' then true else hasPlusChar rest

theorem hasPlusChar_append_plus (l1 l2 : List Char) :
    hasPlusChar (l1 ++ '+' :: l2) = true := by
  induction l1 with
  | nil => simp [hasPlusChar]
  | cons c r ih =>
    by_cases h : c = '+' <;> simp [hasPlusChar, h, ih]

/-- Executable version of `PlusOnlyLeading`. -/
def plusOnlyLeadingB : List Char → Bool
  | [] => true
  | c :: rest => if keepDigitPlus c then !(hasPlusChar rest) else plusOnlyLeadingB rest

theorem plusOnlyLeading_of_B (l : List Char) (h : plusOnlyLeadingB l = true) :
    PlusOnlyLeading l := by
  induction l with
  | nil =>
    intro l1 l2 hl c hc
    exact absurd hl (by simp)
  | cons a rest ih =>
    intro l1 l2 hl c hc
    cases l1 with
    | nil => simp at hc
    | cons b l1' =>
      simp only [List.cons_append] at hl
      injection hl with hab hrest
      cases hk : keepDigitPlus a with
      | true =>
        exfalso
        have hcont : hasPlusChar rest = true := by
          rw [hrest]
          exact hasPlusChar_append_plus l1' l2
        simp [plusOnlyLeadingB, hk, hcont] at h
      | false =>
        rcases List.mem_cons.mp hc with hcb | hcl1'
        · rw [hcb, ← hab]
          exact hk
        · have h' : plusOnlyLeadingB rest = true := by
            simpa [plusOnlyLeadingB, hk] using h
          exact ih h' l1' l2 hrest c hcl1'

theorem normalizeChars_all_digits (l : List Char) (h : PlusOnlyLeading l) :
    ∀ c ∈ normalizeChars l, c.isDigit = true := by
  induction l with
  | nil =>
    intro c hc
    simp [normalizeChars] at hc
  | cons a l' ih =>
    by_cases ha : a = '+'
    · subst ha
      have hnp : '+' ∉ l' := by
        intro hmem
        obtain ⟨s, t, hst⟩ := List.append_of_mem hmem
        have h2 := h ('+' :: s) t (by simp [hst]) '+' (by simp)
        simp [keepDigitPlus] at h2
      have hred : normalizeChars ('+' :: l') = l'.filter keepDigitPlus := by
        simp [normalizeChars, List.filter, keepDigitPlus]
      rw [hred]
      exact no_plus_filter_digits l' hnp
    · cases hk : keepDigitPlus a with
      | true =>
        have hnp : '+' ∉ l' := by
          intro hmem
          obtain ⟨s, t, hst⟩ := List.append_of_mem hmem
          have h2 := h (a :: s) t (by simp [hst]) a (by simp)
          rw [hk] at h2
          exact absurd h2 (by simp)
        have hfil : (a :: l').filter keepDigitPlus = a :: l'.filter keepDigitPlus := by
          simp [List.filter, hk]
        have hred : normalizeChars (a :: l') = a :: l'.filter keepDigitPlus := by
          unfold normalizeChars
          rw [hfil]
          simp [ha]
        rw [hred]
        intro c hc
        rcases List.mem_cons.mp hc with he | hmem
        · subst he
          have hk2 : c.isDigit = true ∨ c = '+' := by simpa [keepDigitPlus] using hk
          rcases hk2 with hd | hp
          · exact hd
          · exact absurd hp ha
        · exact no_plus_filter_digits l' hnp c hmem
      | false =>
        have hfil : (a :: l').filter keepDigitPlus = l'.filter keepDigitPlus := by
          simp [List.filter, hk]
        have hred : normalizeChars (a :: l') = normalizeChars l' := by
          unfold normalizeChars
          rw [hfil]
        rw [hred]
        apply ih
        intro l1 l2 hl c hc
        exact h (a :: l1) l2 (by simp [hl]) c (List.mem_cons_of_mem a hc)

/-- Claim C5 counterexample: The sender address `"1+2"` normalizes to `"1+2"`
itself: the regex `[^\d+]` keeps every `'+'`, and only a *leading* `'+'` is
stripped afterwards, so the result is not all digits — refuting the claim
that the identifier consists only of digits for *every* input string. -/
theorem claim_C5_counterexample :
    normalizePhone "1+2" = "1+2" ∧
    ((normalizePhone "1+2").data.all Char.isDigit) = false := by
  constructor
  · rfl
  · decide

/-- Claim C5 amended: The identifier is obtained by removing every character
that is neither a digit nor `'+'` and then one leading `'+'`; every character
of the result is a digit or `'+'`, and the result consists only of digits
whenever each `'+'` of the input is preceded only by dropped characters — in
particular for every well-formed phone address with at most one leading
`'+'`. -/
theorem claim_C5_normalize_digits (s : String) (h : PlusOnlyLeading s.data) :
    (∀ c ∈ (normalizePhone s).data, keepDigitPlus c = true) ∧
    (∀ c ∈ (normalizePhone s).data, c.isDigit = true) := by
  constructor
  · intro c hc
    have hc' : c ∈ normalizeChars s.data := hc
    rcases hfil : s.data.filter keepDigitPlus with _ | ⟨a, rest⟩
    · have hemp : normalizeChars s.data = [] := by
        unfold normalizeChars
        rw [hfil]
      rw [hemp] at hc'
      simp at hc'
    · have hnc : normalizeChars s.data = if a = '+' then rest else a :: rest := by
        unfold normalizeChars
        rw [hfil]
      rw [hnc] at hc'
      by_cases ha : a = '+'
      · rw [if_pos ha] at hc'
        have hmem : c ∈ s.data.filter keepDigitPlus := by
          rw [hfil]
          exact List.mem_cons_of_mem a hc'
        exact (mem_of_mem_filter_keep s.data c hmem).2
      · rw [if_neg ha] at hc'
        have hmem : c ∈ s.data.filter keepDigitPlus := by
          rw [hfil]
          exact hc'
        exact (mem_of_mem_filter_keep s.data c hmem).2
  · intro c hc
    exact normalizeChars_all_digits s.data h c hc

/-- Witness for C5 amended: the address `"+1555"` normalizes to the
pure-digit identifier `"1555"`. -/
theorem claim_C5_normalize_digits_witness :
    normalizePhone "+1555" = "1555" ∧
    ∀ c ∈ (normalizePhone "+1555").data, c.isDigit = true := by
  refine ⟨by rfl, ?_⟩
  exact (claim_C5_normalize_digits "+1555"
    (plusOnlyLeading_of_B "+1555".data (by decide))).2

/-! ### C6 — animated-sticker forwarding without the transcoder -/

/-- Claim C6 counterexample: With the capability flag false, an animated
sticker whose raw `sendSticker` succeeds is delivered as a *sticker* payload,
not as a plain photo: the code's `else` branch calls `sendSticker`, and the
photo fallback runs only if that throws — refuting the claim that the
forward path produces a photo payload. -/
theorem claim_C6_counterexample :
    (forwardStickerBranch false true ⟨⟨true, true, some [1], false⟩, true, true, true⟩
        [0] "in" "out" []).result = .ok PayloadKind.stickerP ∧
    PayloadKind.stickerP ≠ PayloadKind.photoP := by
  exact ⟨rfl, by decide⟩

/-- Claim C6 amended: With the capability flag false, the animated-sticker
branch never invokes the external transcoder and never touches scratch
files; the payload is a raw sticker if `sendSticker` succeeds, a plain photo
if `sendSticker` fails and the photo fallback succeeds, and an error escapes
the branch only when the photo fallback itself fails. -/
theorem claim_C6_sticker_fallback (env : StickerSendEnv) (buf : List Nat)
    (inN outN : String) (fs : List String) :
    (forwardStickerBranch false true env buf inN outN fs).execCalled = false ∧
    (forwardStickerBranch false true env buf inN outN fs).fs = fs ∧
    (env.sendStickerOk = true →
      (forwardStickerBranch false true env buf inN outN fs).result = .ok .stickerP) ∧
    (env.sendStickerOk = false → env.sendPhotoOk = true →
      (forwardStickerBranch false true env buf inN outN fs).result = .ok .photoP) ∧
    (env.sendStickerOk = false → env.sendPhotoOk = false →
      (forwardStickerBranch false true env buf inN outN fs).result
        = .error "photo send failed") := by
  obtain ⟨te, sa, ss, sp⟩ := env
  cases ss <;> cases sp <;> simp [forwardStickerBranch, photoFallback]

/-- Witness for C6 amended: `sendSticker` fails, the photo fallback
delivers a plain photo. -/
theorem claim_C6_sticker_fallback_witness :
    (forwardStickerBranch false true ⟨⟨true, true, none, false⟩, true, false, true⟩
        [0] "in" "out" []).result = .ok PayloadKind.photoP :=
  (claim_C6_sticker_fallback ⟨⟨true, true, none, false⟩, true, false, true⟩
    [0] "in" "out" []).2.2.2.1 rfl rfl

/-! ### C9 — untracked replies in the status topic get a hint -/

/-- Claim C9: A message arriving in the status special thread that is not a
reply, or whose replied-to message id is not tracked in
`statusMessageMapping`, triggers exactly a usage-hint message back into the
status thread; no reaction is sent toward WhatsApp. -/
theorem claim_C9_status_untracked_hint (gid : Int) (stTid : Nat) (callTid : Option Nat)
    (statusMap revMap : List (Nat × String)) (waBotReady waSendOk : Bool) (msg : TgMsg)
    (hchat : msg.chatId = gid) (hbot : msg.fromIsBot = false)
    (hth : msg.threadId = some stTid)
    (hun : msg.replyToId = none ∨
      ∃ rid, msg.replyToId = some rid ∧ lookupKV rid statusMap = none) :
    handleTelegramMessage gid (some stTid) callTid statusMap revMap waBotReady waSendOk msg
        = [TgAction.hintMessage] ∧
    ∀ s e, TgAction.waStatusReaction s e ∉
      handleTelegramMessage gid (some stTid) callTid statusMap revMap waBotReady waSendOk msg := by
  have key : handleTelegramMessage gid (some stTid) callTid statusMap revMap
      waBotReady waSendOk msg = [TgAction.hintMessage] := by
    unfold handleTelegramMessage
    rcases hun with hr | ⟨rid, hr, hl⟩
    · simp [hchat, hbot, hth, hr]
    · simp [hchat, hbot, hth, hr, hl]
  refine ⟨key, ?_⟩
  intro s e
  rw [key]
  simp

/-- Witness for C9: a concrete non-reply message in the status topic yields
exactly the hint. -/
theorem claim_C9_status_untracked_hint_witness :
    handleTelegramMessage 77 (some 4) (some 5) [(30, "1555_99")] [] true true
        ⟨77, false, some 4, none, some "hello", none⟩ = [TgAction.hintMessage] :=
  (claim_C9_status_untracked_hint 77 4 (some 5) [(30, "1555_99")] [] true true
    ⟨77, false, some 4, none, some "hello", none⟩ rfl rfl rfl (Or.inl rfl)).1

/-! ### C3 — idempotence of `getOrCreateTopic` -/

/-- Claim C3 counterexample: For an identifier that is already mapped before
either call, two sequential `getOrCreateTopic` calls with no intervening
invalidate perform *zero* thread-creation calls in total (both return the
cached thread id), refuting "exactly one thread-creation call in total
across the two invocations". -/
theorem claim_C3_counterexample :
    (getOrCreateTopic ⟨true, true⟩ (fun _ => .ok (some 9)) 0
        ⟨[("15551234567", 7)], [(7, "15551234567")], []⟩ "15551234567" "Alice").threadId
      = some 7 ∧
    (getOrCreateTopic ⟨true, true⟩ (fun _ => .ok (some 9)) 0
        (getOrCreateTopic ⟨true, true⟩ (fun _ => .ok (some 9)) 0
          ⟨[("15551234567", 7)], [(7, "15551234567")], []⟩ "15551234567" "Alice").state
        "15551234567" "Alice").threadId = some 7 ∧
    ¬((getOrCreateTopic ⟨true, true⟩ (fun _ => .ok (some 9)) 0
          ⟨[("15551234567", 7)], [(7, "15551234567")], []⟩ "15551234567" "Alice").createNames.length
        + (getOrCreateTopic ⟨true, true⟩ (fun _ => .ok (some 9)) 0
            (getOrCreateTopic ⟨true, true⟩ (fun _ => .ok (some 9)) 0
              ⟨[("15551234567", 7)], [(7, "15551234567")], []⟩ "15551234567" "Alice").state
            "15551234567" "Alice").createNames.length = 1) := by
  refine ⟨rfl, rfl, ?_⟩
  decide

/-- Claim C3 amended: When the identifier is initially unmapped and the first
call's initial creation attempt returns a (truthy) thread id, the first call
performs exactly one creation request, and the second sequential call — with
no intervening invalidate — returns the mapped thread id from the registry
without requesting any thread creation and without changing the state, for
one creation call in total. -/
theorem claim_C3_goc_idempotent (cfg : TgConfig) (creat creat' : Nat → CreateOutcome)
    (now now' : Nat) (st : RegState) (i d : String) (res : Option Nat) (t : Nat)
    (hcfg : cfg.createTopics = true) (hbot : cfg.botReady = true)
    (hun : lookupKV i st.topicMapping = none)
    (hc : creat 0 = .ok res) (ht : tidOk res = some t) :
    (getOrCreateTopic cfg creat now st i d).threadId = some t ∧
    (getOrCreateTopic cfg creat now st i d).createNames.length = 1 ∧
    getOrCreateTopic cfg creat' now' (getOrCreateTopic cfg creat now st i d).state i d
      = ⟨some t, (getOrCreateTopic cfg creat now st i d).state, []⟩ := by
  have hb : (cfg.createTopics && cfg.botReady) = true := by simp [hcfg, hbot]
  have hto : tidOk (lookupKV i st.topicMapping) = none := by rw [hun]; rfl
  have hg1 : getOrCreateTopic cfg creat now st i d = gocCreate creat now st i d := by
    simp [getOrCreateTopic, hb, hto]
  refine ⟨?_, ?_, ?_⟩
  · rw [hg1]
    simp [gocCreate, hc, ht]
  · rw [hg1]
    simp [gocCreate, hc, ht]
  · rw [hg1]
    have hstate : (gocCreate creat now st i d).state.topicMapping
        = insertKV i t st.topicMapping := by
      simp [gocCreate, hc, ht, insertMapping]
    have ht0 : t ≠ 0 := ((tidOk_some_iff res t).mp ht).2
    have hto2 : tidOk (lookupKV i
        (gocCreate creat now st i d).state.topicMapping) = some t := by
      rw [hstate, lookupKV_insertKV_self]
      simp [tidOk, ht0]
    simp [getOrCreateTopic, hb, hto2]

/-- Witness for C3 amended: fresh state, creation returns thread 5; the
second call is served from the registry. -/
theorem claim_C3_goc_idempotent_witness :
    (getOrCreateTopic ⟨true, true⟩ (fun _ => .ok (some 5)) 1234
        ⟨[], [], []⟩ "15551234567" "Alice").threadId = some 5 ∧
    getOrCreateTopic ⟨true, true⟩ (fun _ => .err "boom") 99
        (getOrCreateTopic ⟨true, true⟩ (fun _ => .ok (some 5)) 1234
          ⟨[], [], []⟩ "15551234567" "Alice").state "15551234567" "Alice"
      = ⟨some 5, (getOrCreateTopic ⟨true, true⟩ (fun _ => .ok (some 5)) 1234
          ⟨[], [], []⟩ "15551234567" "Alice").state, []⟩ := by
  have h := claim_C3_goc_idempotent ⟨true, true⟩ (fun _ => .ok (some 5)) (fun _ => .err "boom")
    1234 99 ⟨[], [], []⟩ "15551234567" "Alice" (some 5) 5 rfl rfl rfl rfl rfl
  exact ⟨h.1, h.2.2⟩

/-! ### C4 — duplicate-name retry in `getOrCreateTopic` -/

theorem getContactName_snd_fst (cache : List (String × String)) (n f : String) :
    (getContactName (getContactName cache n f).2 n f).1 = (getContactName cache n f).1 := by
  have hsecond :
      (getContactName (insertKV n (if f = "" then "Contact " ++ n else f) cache) n f).1
        = (if f = "" then "Contact " ++ n else f) := by
    simp only [getContactName, lookupKV_insertKV_self]
    by_cases hfr : (if f = "" then "Contact " ++ n else f) = "" <;> simp [hfr]
  cases hl : lookupKV n cache with
  | none =>
    have h1 : getContactName cache n f
        = ((if f = "" then "Contact " ++ n else f),
           insertKV n (if f = "" then "Contact " ++ n else f) cache) := by
      simp [getContactName, hl]
    rw [h1]
    exact hsecond
  | some v =>
    by_cases hv : v = ""
    · have h1 : getContactName cache n f
          = ((if f = "" then "Contact " ++ n else f),
             insertKV n (if f = "" then "Contact " ++ n else f) cache) := by
        simp [getContactName, hl, hv]
      rw [h1]
      exact hsecond
    · have h1 : getContactName cache n f = (v, cache) := by
        simp [getContactName, hl, hv]
      rw [h1]
      simp [getContactName, hl, hv]

/-- The duplicate-retry topic name is the first topic name plus a
timestamp-derived suffix (parenthesised for groups, space-separated for
individuals). -/
theorem retryName_rel (st : RegState) (i d ts : String) :
    (topicNamePairRetry { st with contactsCache := (topicNamePair st i d).2 } i d ts).1
        = (topicNamePair st i d).1 ++ " (" ++ ts ++ ")" ∨
    (topicNamePairRetry { st with contactsCache := (topicNamePair st i d).2 } i d ts).1
        = (topicNamePair st i d).1 ++ " " ++ ts := by
  cases hg : isGroupIdent i with
  | true =>
    left
    simp [topicNamePair, topicNamePairRetry, hg, String.append_assoc]
  | false =>
    right
    simp only [topicNamePair, topicNamePairRetry, hg, Bool.false_eq_true, if_false]
    rw [getContactName_snd_fst]
    simp [String.append_assoc]

/-- When enabled and unmapped, `getOrCreateTopic` takes the creation path. -/
theorem goc_unmapped_eq_create (cfg : TgConfig) (creat : Nat → CreateOutcome) (now : Nat)
    (st : RegState) (i d : String)
    (hb : (cfg.createTopics && cfg.botReady) = true)
    (hun : lookupKV i st.topicMapping = none) :
    getOrCreateTopic cfg creat now st i d = gocCreate creat now st i d := by
  have hto : tidOk (lookupKV i st.topicMapping) = none := by rw [hun]; rfl
  simp [getOrCreateTopic, hb, hto]

/-- On the creation path every branch makes at least one creation call. -/
theorem gocCreate_names_ne_nil (creat : Nat → CreateOutcome) (now : Nat)
    (st : RegState) (i d : String) :
    (gocCreate creat now st i d).createNames ≠ [] := by
  unfold gocCreate
  cases hc : creat 0 with
  | ok res =>
    cases hres : tidOk res <;> simp [hres]
  | err e =>
    by_cases hd : dupClass e = true
    · simp only [hd, if_true]
      cases hc1 : creat 1 with
      | ok res2 => cases hres : tidOk res2 <;> simp [hres]
      | err e2 => simp
    · simp [hd]

/-- An unmapped identifier (with creation enabled) always triggers at least
one creation attempt. -/
theorem goc_attempts_create_of_unmapped (cfg : TgConfig) (creat : Nat → CreateOutcome)
    (now : Nat) (st : RegState) (i d : String)
    (hb : (cfg.createTopics && cfg.botReady) = true)
    (hun : lookupKV i st.topicMapping = none) :
    (getOrCreateTopic cfg creat now st i d).createNames ≠ [] := by
  rw [goc_unmapped_eq_create cfg creat now st i d hb hun]
  exact gocCreate_names_ne_nil creat now st i d

/-- Claim C4: When the first creation attempt of `getOrCreateTopic` fails:
on a duplicate-name class of error exactly one retry is made, its topic name
being the first name disambiguated with the last four digits of the current
timestamp, and if the retry also fails the call returns null with the
identifier unmapped in both registry maps, so a later call attempts creation
afresh; on any failure outside the duplicate-name class there is no retry
and the call returns null with the registry unchanged. -/
theorem claim_C4_duplicate_retry (cfg : TgConfig) (creat : Nat → CreateOutcome) (now : Nat)
    (st : RegState) (i d e : String)
    (hcfg : cfg.createTopics = true) (hbot : cfg.botReady = true)
    (hInv : RegInv st) (hun : lookupKV i st.topicMapping = none)
    (h0 : creat 0 = .err e) :
    (dupClass e = true →
      (getOrCreateTopic cfg creat now st i d).createNames.length = 2 ∧
      ((getOrCreateTopic cfg creat now st i d).createNames.getD 1 ""
          = (getOrCreateTopic cfg creat now st i d).createNames.getD 0 ""
              ++ " (" ++ last4 (Nat.repr now) ++ ")" ∨
       (getOrCreateTopic cfg creat now st i d).createNames.getD 1 ""
          = (getOrCreateTopic cfg creat now st i d).createNames.getD 0 ""
              ++ " " ++ last4 (Nat.repr now)) ∧
      (∀ e2, creat 1 = .err e2 →
        (getOrCreateTopic cfg creat now st i d).threadId = none ∧
        (getOrCreateTopic cfg creat now st i d).state.topicMapping = st.topicMapping ∧
        (getOrCreateTopic cfg creat now st i d).state.reverseTopicMapping
          = st.reverseTopicMapping ∧
        lookupKV i (getOrCreateTopic cfg creat now st i d).state.topicMapping = none ∧
        (∀ t, lookupKV t
          (getOrCreateTopic cfg creat now st i d).state.reverseTopicMapping ≠ some i) ∧
        (∀ creat' now',
          (getOrCreateTopic cfg creat' now'
            (getOrCreateTopic cfg creat now st i d).state i d).createNames ≠ []))) ∧
    (dupClass e = false →
      (getOrCreateTopic cfg creat now st i d).createNames.length = 1 ∧
      (getOrCreateTopic cfg creat now st i d).threadId = none ∧
      (getOrCreateTopic cfg creat now st i d).state.topicMapping = st.topicMapping ∧
      (getOrCreateTopic cfg creat now st i d).state.reverseTopicMapping
        = st.reverseTopicMapping) := by
  have hb : (cfg.createTopics && cfg.botReady) = true := by simp [hcfg, hbot]
  have hto : tidOk (lookupKV i st.topicMapping) = none := by rw [hun]; rfl
  have hgoc : getOrCreateTopic cfg creat now st i d = gocCreate creat now st i d := by
    simp [getOrCreateTopic, hb, hto]
  constructor
  · intro hd
    have hnames : (gocCreate creat now st i d).createNames
        = [(topicNamePair st i d).1,
           (topicNamePairRetry { st with contactsCache := (topicNamePair st i d).2 } i d
             (last4 (Nat.repr now))).1] := by
      unfold gocCreate
      rw [h0]
      simp only [hd, if_true]
      cases hc1 : creat 1 with
      | ok res2 => cases hres : tidOk res2 <;> simp [hres]
      | err e2 => simp
    refine ⟨?_, ?_, ?_⟩
    · rw [hgoc, hnames]; rfl
    · rw [hgoc, hnames]
      exact retryName_rel st i d (last4 (Nat.repr now))
    · intro e2 h1
      have heq : gocCreate creat now st i d
          = ⟨none,
             { st with contactsCache :=
                (topicNamePairRetry { st with contactsCache := (topicNamePair st i d).2 } i d
                  (last4 (Nat.repr now))).2 },
             [(topicNamePair st i d).1,
              (topicNamePairRetry { st with contactsCache := (topicNamePair st i d).2 } i d
                (last4 (Nat.repr now))).1]⟩ := by
        unfold gocCreate
        rw [h0]
        simp only [hd, if_true]
        rw [h1]
      refine ⟨?_, ?_, ?_, ?_, ?_, ?_⟩
      · rw [hgoc, heq]
      · rw [hgoc, heq]
      · rw [hgoc, heq]
      · rw [hgoc, heq]; exact hun
      · intro t hrev
        rw [hgoc, heq] at hrev
        have := hInv.2 t i hrev
        rw [hun] at this
        exact Option.noConfusion this
      · intro creat' now'
        rw [hgoc, heq]
        exact goc_attempts_create_of_unmapped cfg creat' now' _ i d hb hun
  · intro hd
    have heq : gocCreate creat now st i d
        = ⟨none, { st with contactsCache := (topicNamePair st i d).2 },
           [(topicNamePair st i d).1]⟩ := by
      unfold gocCreate
      rw [h0]
      simp [hd]
    refine ⟨?_, ?_, ?_, ?_⟩ <;> simp [hgoc, heq]

/-- Witness for C4: duplicate-name failure then a second failure leaves the
registry unchanged and yields two creation attempts. -/
theorem claim_C4_duplicate_retry_witness :
    (getOrCreateTopic ⟨true, true⟩
        (fun k => if k = 0 then .err "duplicate name" else .err "flood") 91234
        ⟨[], [], []⟩ "15551234567" "Alice").createNames.length = 2 ∧
    (getOrCreateTopic ⟨true, true⟩
        (fun k => if k = 0 then .err "duplicate name" else .err "flood") 91234
        ⟨[], [], []⟩ "15551234567" "Alice").threadId = none ∧
    (getOrCreateTopic ⟨true, true⟩
        (fun k => if k = 0 then .err "duplicate name" else .err "flood") 91234
        ⟨[], [], []⟩ "15551234567" "Alice").state.topicMapping = [] := by
  have h := claim_C4_duplicate_retry ⟨true, true⟩
    (fun k => if k = 0 then .err "duplicate name" else .err "flood") 91234
    ⟨[], [], []⟩ "15551234567" "Alice" "duplicate name" rfl rfl
    (by constructor <;> intro a b hx <;> simp [lookupKV] at hx) rfl rfl
  have h1 := h.1 (by decide)
  have h2 := h1.2.2 "flood" rfl
  exact ⟨h1.1, h2.1, h2.2.1⟩

/-! ### C2 — the forward/reverse maps are strict inverses -/

theorem goc_disabled_eq (cfg : TgConfig) (creat : Nat → CreateOutcome) (now : Nat)
    (st : RegState) (i d : String)
    (h : (cfg.createTopics && cfg.botReady) = false) :
    getOrCreateTopic cfg creat now st i d = ⟨none, st, []⟩ := by
  simp [getOrCreateTopic, h]

theorem goc_cached_eq (cfg : TgConfig) (creat : Nat → CreateOutcome) (now : Nat)
    (st : RegState) (i d : String) (t : Nat)
    (hb : (cfg.createTopics && cfg.botReady) = true)
    (hl : tidOk (lookupKV i st.topicMapping) = some t) :
    getOrCreateTopic cfg creat now st i d = ⟨some t, st, []⟩ := by
  simp [getOrCreateTopic, hb, hl]

theorem RegInv_insertMapping (st : RegState) (i : String) (t : Nat)
    (hInv : RegInv st)
    (hfresh : lookupKV t st.reverseTopicMapping = none)
    (hiF : lookupKV i st.topicMapping = none) :
    RegInv (insertMapping st i t) ∧
    lookupKV i (insertMapping st i t).topicMapping = some t ∧
    lookupKV t (insertMapping st i t).reverseTopicMapping = some i := by
  refine ⟨⟨?_, ?_⟩, ?_, ?_⟩
  · intro j u hl
    simp only [insertMapping] at hl ⊢
    by_cases hji : j = i
    · subst hji
      rw [lookupKV_insertKV_self] at hl
      have hut : t = u := Option.some.inj hl
      subst hut
      rw [lookupKV_insertKV_self]
    · rw [lookupKV_insertKV_ne _ i j t hji] at hl
      have hst := hInv.1 j u hl
      have hut : u ≠ t := by
        intro he
        subst he
        rw [hfresh] at hst
        exact Option.noConfusion hst
      rw [lookupKV_insertKV_ne _ t u i hut]
      exact hst
  · intro u j hl
    simp only [insertMapping] at hl ⊢
    by_cases hut : u = t
    · subst hut
      rw [lookupKV_insertKV_self] at hl
      have hji : i = j := Option.some.inj hl
      subst hji
      rw [lookupKV_insertKV_self]
    · rw [lookupKV_insertKV_ne _ t u i hut] at hl
      have hst := hInv.2 u j hl
      have hji : j ≠ i := by
        intro he
        subst he
        rw [hiF] at hst
        exact Option.noConfusion hst
      rw [lookupKV_insertKV_ne _ i j t hji]
      exact hst
  · simp only [insertMapping]
    exact lookupKV_insertKV_self _ i t
  · simp only [insertMapping]
    exact lookupKV_insertKV_self _ t i

theorem zeroFree_insertMapping (st : RegState) (i : String) (t : Nat)
    (ht0 : t ≠ 0) (hz : lookupKV 0 st.reverseTopicMapping = none) :
    lookupKV 0 (insertMapping st i t).reverseTopicMapping = none := by
  simp only [insertMapping]
  rw [lookupKV_insertKV_ne _ t 0 i (fun h => ht0 h.symm)]
  exact hz

theorem RegInv_invalidateMapping (st : RegState) (j : String) (tj : Nat)
    (hInv : RegInv st) (hm : lookupKV j st.topicMapping = some tj) :
    RegInv (invalidateMapping st j tj) := by
  have hrev : lookupKV tj st.reverseTopicMapping = some j := hInv.1 j tj hm
  constructor
  · intro a u hl
    simp only [invalidateMapping] at hl ⊢
    by_cases ha : a = j
    · subst ha
      rw [lookupKV_removeKey_self] at hl
      exact Option.noConfusion hl
    · rw [lookupKV_removeKey_ne _ j a ha] at hl
      have h2 := hInv.1 a u hl
      have hut : u ≠ tj := by
        intro he
        subst he
        rw [hrev] at h2
        exact ha (Option.some.inj h2).symm
      rw [lookupKV_removeKey_ne _ tj u hut]
      exact h2
  · intro u a hl
    simp only [invalidateMapping] at hl ⊢
    by_cases hu : u = tj
    · subst hu
      rw [lookupKV_removeKey_self] at hl
      exact Option.noConfusion hl
    · rw [lookupKV_removeKey_ne _ tj u hu] at hl
      have h2 := hInv.2 u a hl
      have haj : a ≠ j := by
        intro he
        subst he
        rw [hm] at h2
        exact hu (Option.some.inj h2).symm
      rw [lookupKV_removeKey_ne _ j a haj]
      exact h2

theorem zeroFree_invalidateMapping (st : RegState) (j : String) (tj : Nat)
    (hz : lookupKV 0 st.reverseTopicMapping = none) :
    lookupKV 0 (invalidateMapping st j tj).reverseTopicMapping = none := by
  simp only [invalidateMapping]
  exact lookupKV_removeKey_none _ tj 0 hz

/-- On the creation path the forward map has no (truthy or stale) entry for
the identifier, given the zero-free reverse map. -/
theorem lookupF_none_of_create (st : RegState) (i : String)
    (hInv : RegInv st) (hz : lookupKV 0 st.reverseTopicMapping = none)
    (h : tidOk (lookupKV i st.topicMapping) = none) :
    lookupKV i st.topicMapping = none := by
  cases hl : lookupKV i st.topicMapping with
  | none => rfl
  | some t =>
    rw [hl] at h
    have ht : t = 0 := by
      by_contra h0
      simp [tidOk, h0] at h
    subst ht
    have h2 := hInv.1 i 0 hl
    rw [hz] at h2
    exact Option.noConfusion h2

/-- Postcondition of the creation path: lookups of a returned thread id, the
inverse invariant, and zero-freeness all hold afterwards, assuming fresh
thread ids from the destination surface. -/
theorem gocCreate_post (creat : Nat → CreateOutcome) (now : Nat) (st : RegState) (i d : String)
    (hInv : RegInv st) (hz : lookupKV 0 st.reverseTopicMapping = none)
    (hF : FreshCreat creat st)
    (hun : lookupKV i st.topicMapping = none) :
    (∀ t, (gocCreate creat now st i d).threadId = some t →
      lookupKV i (gocCreate creat now st i d).state.topicMapping = some t ∧
      lookupKV t (gocCreate creat now st i d).state.reverseTopicMapping = some i) ∧
    RegInv (gocCreate creat now st i d).state ∧
    lookupKV 0 (gocCreate creat now st i d).state.reverseTopicMapping = none := by
  cases hc0 : creat 0 with
  | ok res =>
    cases hres : tidOk res with
    | some t =>
      have heq : gocCreate creat now st i d
          = ⟨some t, insertMapping { st with contactsCache := (topicNamePair st i d).2 } i t,
             [(topicNamePair st i d).1]⟩ := by
        unfold gocCreate
        rw [hc0]
        simp [hres]
      have ht0 : t ≠ 0 := ((tidOk_some_iff res t).mp hres).2
      have hfresh : lookupKV t st.reverseTopicMapping = none := hF 0 res t hc0 hres
      have hins := RegInv_insertMapping { st with contactsCache := (topicNamePair st i d).2 }
        i t hInv hfresh hun
      refine ⟨?_, ?_, ?_⟩
      · intro t' hth
        rw [heq] at hth
        have h' : some t = some t' := hth
        obtain rfl := Option.some.inj h'
        rw [heq]
        exact ⟨hins.2.1, hins.2.2⟩
      · rw [heq]
        exact hins.1
      · rw [heq]
        exact zeroFree_insertMapping _ i t ht0 hz
    | none =>
      have heq : gocCreate creat now st i d
          = ⟨none, { st with contactsCache := (topicNamePair st i d).2 },
             [(topicNamePair st i d).1]⟩ := by
        unfold gocCreate
        rw [hc0]
        simp [hres]
      refine ⟨?_, ?_, ?_⟩
      · intro t' hth
        rw [heq] at hth
        exact absurd (hth : (none : Option Nat) = some t') (by simp)
      · rw [heq]
        exact hInv
      · rw [heq]
        exact hz
  | err e =>
    by_cases hd : dupClass e = true
    · cases hc1 : creat 1 with
      | ok res2 =>
        cases hres2 : tidOk res2 with
        | some t =>
          have heq : gocCreate creat now st i d
              = ⟨some t,
                 insertMapping
                   { st with contactsCache :=
                      (topicNamePairRetry { st with contactsCache := (topicNamePair st i d).2 }
                        i d (last4 (Nat.repr now))).2 } i t,
                 [(topicNamePair st i d).1,
                  (topicNamePairRetry { st with contactsCache := (topicNamePair st i d).2 }
                    i d (last4 (Nat.repr now))).1]⟩ := by
            unfold gocCreate
            rw [hc0]
            simp only [hd, if_true]
            rw [hc1]
            simp [hres2]
          have ht0 : t ≠ 0 := ((tidOk_some_iff res2 t).mp hres2).2
          have hfresh : lookupKV t st.reverseTopicMapping = none := hF 1 res2 t hc1 hres2
          have hins := RegInv_insertMapping
            { st with contactsCache :=
               (topicNamePairRetry { st with contactsCache := (topicNamePair st i d).2 }
                 i d (last4 (Nat.repr now))).2 } i t hInv hfresh hun
          refine ⟨?_, ?_, ?_⟩
          · intro t' hth
            rw [heq] at hth
            have h' : some t = some t' := hth
            obtain rfl := Option.some.inj h'
            rw [heq]
            exact ⟨hins.2.1, hins.2.2⟩
          · rw [heq]
            exact hins.1
          · rw [heq]
            exact zeroFree_insertMapping _ i t ht0 hz
        | none =>
          have heq : gocCreate creat now st i d
              = ⟨none,
                 { st with contactsCache :=
                    (topicNamePairRetry { st with contactsCache := (topicNamePair st i d).2 }
                      i d (last4 (Nat.repr now))).2 },
                 [(topicNamePair st i d).1,
                  (topicNamePairRetry { st with contactsCache := (topicNamePair st i d).2 }
                    i d (last4 (Nat.repr now))).1]⟩ := by
            unfold gocCreate
            rw [hc0]
            simp only [hd, if_true]
            rw [hc1]
            simp [hres2]
          refine ⟨?_, ?_, ?_⟩
          · intro t' hth
            rw [heq] at hth
            exact absurd (hth : (none : Option Nat) = some t') (by simp)
          · rw [heq]
            exact hInv
          · rw [heq]
            exact hz
      | err e2 =>
        have heq : gocCreate creat now st i d
            = ⟨none,
               { st with contactsCache :=
                  (topicNamePairRetry { st with contactsCache := (topicNamePair st i d).2 }
                    i d (last4 (Nat.repr now))).2 },
               [(topicNamePair st i d).1,
                (topicNamePairRetry { st with contactsCache := (topicNamePair st i d).2 }
                  i d (last4 (Nat.repr now))).1]⟩ := by
          unfold gocCreate
          rw [hc0]
          simp only [hd, if_true]
          rw [hc1]
        refine ⟨?_, ?_, ?_⟩
        · intro t' hth
          rw [heq] at hth
          exact absurd (hth : (none : Option Nat) = some t') (by simp)
        · rw [heq]
          exact hInv
        · rw [heq]
          exact hz
    · have heq : gocCreate creat now st i d
          = ⟨none, { st with contactsCache := (topicNamePair st i d).2 },
             [(topicNamePair st i d).1]⟩ := by
        unfold gocCreate
        rw [hc0]
        simp [hd]
      refine ⟨?_, ?_, ?_⟩
      · intro t' hth
        rw [heq] at hth
        exact absurd (hth : (none : Option Nat) = some t') (by simp)
      · rw [heq]
        exact hInv
      · rw [heq]
        exact hz

/-- Claim C2: Assuming the registry satisfies the inverse invariant (with a
zero-free reverse map) and the destination surface hands out fresh thread
ids: after `getOrCreateTopic` returns a thread id `t` for identifier `i`,
the forward map resolves `i` to `t` and the reverse map resolves `t` to `i`;
the two maps remain strict inverses (and zero-free) after `getOrCreateTopic`
on either creation path; and they remain strict inverses after the
invalidate (paired deletions) performed during retry-recreate. -/
theorem claim_C2_inverse_invariant (cfg : TgConfig) (creat : Nat → CreateOutcome) (now : Nat)
    (st : RegState) (i d : String)
    (hInv : RegInv st) (hz : lookupKV 0 st.reverseTopicMapping = none)
    (hF : FreshCreat creat st) :
    (∀ t, (getOrCreateTopic cfg creat now st i d).threadId = some t →
      lookupKV i (getOrCreateTopic cfg creat now st i d).state.topicMapping = some t ∧
      lookupKV t (getOrCreateTopic cfg creat now st i d).state.reverseTopicMapping = some i) ∧
    RegInv (getOrCreateTopic cfg creat now st i d).state ∧
    lookupKV 0 (getOrCreateTopic cfg creat now st i d).state.reverseTopicMapping = none ∧
    (∀ j tj, lookupKV j st.topicMapping = some tj →
      RegInv (invalidateMapping st j tj) ∧
      lookupKV 0 (invalidateMapping st j tj).reverseTopicMapping = none) := by
  have habc : (∀ t, (getOrCreateTopic cfg creat now st i d).threadId = some t →
      lookupKV i (getOrCreateTopic cfg creat now st i d).state.topicMapping = some t ∧
      lookupKV t (getOrCreateTopic cfg creat now st i d).state.reverseTopicMapping = some i) ∧
      RegInv (getOrCreateTopic cfg creat now st i d).state ∧
      lookupKV 0 (getOrCreateTopic cfg creat now st i d).state.reverseTopicMapping = none := by
    by_cases hbe : (cfg.createTopics && cfg.botReady) = true
    · cases hl : tidOk (lookupKV i st.topicMapping) with
      | some t =>
        rw [goc_cached_eq cfg creat now st i d t hbe hl]
        obtain ⟨hlk, ht0⟩ := (tidOk_some_iff _ t).mp hl
        refine ⟨?_, hInv, hz⟩
        intro t' hth
        have h' : some t = some t' := hth
        obtain rfl := Option.some.inj h'
        exact ⟨hlk, hInv.1 i t hlk⟩
      | none =>
        have hun : lookupKV i st.topicMapping = none :=
          lookupF_none_of_create st i hInv hz hl
        rw [goc_unmapped_eq_create cfg creat now st i d hbe hun]
        exact gocCreate_post creat now st i d hInv hz hF hun
    · have hbf : (cfg.createTopics && cfg.botReady) = false := by
        cases h : (cfg.createTopics && cfg.botReady) with
        | false => rfl
        | true => exact absurd h hbe
      rw [goc_disabled_eq cfg creat now st i d hbf]
      refine ⟨?_, hInv, hz⟩
      intro t' hth
      exact absurd (hth : (none : Option Nat) = some t') (by simp)
  refine ⟨habc.1, habc.2.1, habc.2.2, ?_⟩
  intro j tj hm
  exact ⟨RegInv_invalidateMapping st j tj hInv hm, zeroFree_invalidateMapping st j tj hz⟩

/-- Witness for C2: from an empty registry, creating a topic for
`"15551234567"` yields mutually inverse entries and preserves the
invariant; invalidating an existing mapping also preserves it. -/
theorem claim_C2_inverse_invariant_witness :
    lookupKV "15551234567"
      (getOrCreateTopic ⟨true, true⟩ (fun _ => .ok (some 5)) 1234
        ⟨[], [], []⟩ "15551234567" "Alice").state.topicMapping = some 5 ∧
    lookupKV 5
      (getOrCreateTopic ⟨true, true⟩ (fun _ => .ok (some 5)) 1234
        ⟨[], [], []⟩ "15551234567" "Alice").state.reverseTopicMapping = some "15551234567" ∧
    RegInv (getOrCreateTopic ⟨true, true⟩ (fun _ => .ok (some 5)) 1234
        ⟨[], [], []⟩ "15551234567" "Alice").state := by
  have hInv : RegInv (⟨[], [], []⟩ : RegState) := by
    constructor <;> intro a b hx <;> simp [lookupKV] at hx
  have h := claim_C2_inverse_invariant ⟨true, true⟩ (fun _ => .ok (some 5)) 1234
    ⟨[], [], []⟩ "15551234567" "Alice" hInv (by simp [lookupKV])
    (by intro k r t hr ht; simp [lookupKV])
  have h1 := h.1 5 (by rfl)
  exact ⟨h1.1, h1.2, h.2.1⟩

/-! ### C1 — the retrying sender's recreate protocol -/

theorem gocCreate_threadId_ne_zero (creat : Nat → CreateOutcome) (now : Nat)
    (st : RegState) (i d : String) (t : Nat)
    (h : (gocCreate creat now st i d).threadId = some t) : t ≠ 0 := by
  unfold gocCreate at h
  cases hc0 : creat 0 with
  | ok res =>
    rw [hc0] at h
    cases hres : tidOk res with
    | some u =>
      simp only [hres] at h
      obtain rfl := Option.some.inj h
      exact ((tidOk_some_iff res u).mp hres).2
    | none => simp [hres] at h
  | err e =>
    rw [hc0] at h
    by_cases hd : dupClass e = true
    · simp only [hd, if_true] at h
      cases hc1 : creat 1 with
      | ok res2 =>
        rw [hc1] at h
        cases hres2 : tidOk res2 with
        | some u =>
          simp only [hres2] at h
          obtain rfl := Option.some.inj h
          exact ((tidOk_some_iff res2 u).mp hres2).2
        | none => simp [hres2] at h
      | err e2 =>
        rw [hc1] at h
        exact absurd (h : (none : Option Nat) = some t) (by simp)
    · simp only [hd, if_false] at h
      exact absurd (h : (none : Option Nat) = some t) (by simp)

theorem goc_threadId_ne_zero (cfg : TgConfig) (creat : Nat → CreateOutcome) (now : Nat)
    (st : RegState) (i d : String) (t : Nat)
    (h : (getOrCreateTopic cfg creat now st i d).threadId = some t) : t ≠ 0 := by
  by_cases hbe : (cfg.createTopics && cfg.botReady) = true
  · cases hl : tidOk (lookupKV i st.topicMapping) with
    | some u =>
      rw [goc_cached_eq cfg creat now st i d u hbe hl] at h
      obtain rfl := Option.some.inj (h : some u = some t)
      exact ((tidOk_some_iff _ u).mp hl).2
    | none =>
      have hred : getOrCreateTopic cfg creat now st i d = gocCreate creat now st i d := by
        simp [getOrCreateTopic, hbe, hl]
      rw [hred] at h
      exact gocCreate_threadId_ne_zero creat now st i d t h
  · have hbf : (cfg.createTopics && cfg.botReady) = false := by
      cases hx : (cfg.createTopics && cfg.botReady) with
      | false => rfl
      | true => exact absurd hx hbe
    rw [goc_disabled_eq cfg creat now st i d hbf] at h
    exact absurd (h : (none : Option Nat) = some t) (by simp)

/-- Claim C1: When a send fails with a thread-missing class of error and
identifier, display name and a payload thread id were all supplied (and
truthy), the sender deletes the identifier's forward entry and the payload
thread's reverse entry, runs `getOrCreateTopic` on the resulting state, and —
if that returns a thread id — retries the send exactly once with the new
thread id substituted, propagating the retry's outcome (success or its
error) unchanged; if recreation returns null the original error propagates
with no retry. A failure outside the thread-missing class, or with any of
the identifier/display-name/thread-id missing or falsy, propagates the
original error unchanged after the single attempt, with no registry change
and no recreate. -/
theorem claim_C1_send_retry_recreate (cfg : TgConfig) (creat : Nat → CreateOutcome) (now : Nat)
    (send2 : Except String Nat) (st : RegState)
    (threadId : Option Nat) (identifier displayName : Option String) (e : String) :
    (∀ i d tid, identifier = some i → displayName = some d → threadId = some tid →
      strTruthy i = true → strTruthy d = true → natTruthy tid = true →
      threadMissingClass e = true →
      lookupKV i (invalidateMapping st i tid).topicMapping = none ∧
      lookupKV tid (invalidateMapping st i tid).reverseTopicMapping = none ∧
      (∀ t', (getOrCreateTopic cfg creat now (invalidateMapping st i tid) i d).threadId
            = some t' →
        sendToTelegramWithRetry cfg creat now (.error e) send2 st threadId identifier displayName
          = ⟨send2, (getOrCreateTopic cfg creat now (invalidateMapping st i tid) i d).state,
             [threadId, some t']⟩) ∧
      ((getOrCreateTopic cfg creat now (invalidateMapping st i tid) i d).threadId = none →
        sendToTelegramWithRetry cfg creat now (.error e) send2 st threadId identifier displayName
          = ⟨.error e, (getOrCreateTopic cfg creat now (invalidateMapping st i tid) i d).state,
             [threadId]⟩)) ∧
    ((threadMissingClass e = false ∨ identifier = none ∨ displayName = none ∨ threadId = none ∨
        identifier = some "" ∨ displayName = some "" ∨ threadId = some 0) →
      sendToTelegramWithRetry cfg creat now (.error e) send2 st threadId identifier displayName
        = ⟨.error e, st, [threadId]⟩) := by
  constructor
  · intro i d tid hI hD hT hti htd httid hm
    subst hI
    subst hD
    subst hT
    have hcond : (strTruthy i && strTruthy d && natTruthy tid && threadMissingClass e)
        = true := by
      simp [hti, htd, httid, hm]
    refine ⟨?_, ?_, ?_, ?_⟩
    · simp only [invalidateMapping]
      exact lookupKV_removeKey_self _ i
    · simp only [invalidateMapping]
      exact lookupKV_removeKey_self _ tid
    · intro t' hg
      have ht'0 : t' ≠ 0 :=
        goc_threadId_ne_zero cfg creat now (invalidateMapping st i tid) i d t' hg
      unfold sendToTelegramWithRetry
      simp only [hcond, if_true]
      rw [hg]
      simp only [natTruthy, ht'0, if_false, if_true]
      cases send2 <;> rfl
    · intro hg
      unfold sendToTelegramWithRetry
      simp only [hcond, if_true]
      rw [hg]
  · intro hother
    unfold sendToTelegramWithRetry
    match identifier, displayName, threadId with
    | none, _, _ => rfl
    | some i, none, _ => rfl
    | some i, some d, none => rfl
    | some i, some d, some tid =>
      have hcond : (strTruthy i && strTruthy d && natTruthy tid && threadMissingClass e)
          = false := by
        rcases hother with hm | hI | hD | hT | hI | hD | hT
        · simp [hm]
        · exact absurd hI (by simp)
        · exact absurd hD (by simp)
        · exact absurd hT (by simp)
        · obtain rfl := Option.some.inj hI
          simp [strTruthy]
        · obtain rfl := Option.some.inj hD
          simp [strTruthy]
        · obtain rfl := Option.some.inj hT
          simp [natTruthy]
      simp [hcond]

/-- Witness for C1: a thread-missing failure with a successful recreation
retries once on the new thread; the same failure without identifier
information propagates unchanged. -/
theorem claim_C1_send_retry_recreate_witness :
    sendToTelegramWithRetry ⟨true, true⟩ (fun _ => .ok (some 8)) 1234 (.error "topic deleted")
        (.ok 42) ⟨[("15551234567", 5)], [(5, "15551234567")], []⟩
        (some 5) (some "15551234567") (some "Alice")
      = ⟨.ok 42,
         (getOrCreateTopic ⟨true, true⟩ (fun _ => .ok (some 8)) 1234
           (invalidateMapping ⟨[("15551234567", 5)], [(5, "15551234567")], []⟩
             "15551234567" 5) "15551234567" "Alice").state,
         [some 5, some 8]⟩ ∧
    sendToTelegramWithRetry ⟨true, true⟩ (fun _ => .ok (some 8)) 1234 (.error "flood wait")
        (.ok 42) ⟨[("15551234567", 5)], [(5, "15551234567")], []⟩
        (some 5) (some "15551234567") (some "Alice")
      = ⟨.error "flood wait", ⟨[("15551234567", 5)], [(5, "15551234567")], []⟩, [some 5]⟩ := by
  have h := claim_C1_send_retry_recreate ⟨true, true⟩ (fun _ => .ok (some 8)) 1234
    (.ok 42) ⟨[("15551234567", 5)], [(5, "15551234567")], []⟩
    (some 5) (some "15551234567") (some "Alice") "topic deleted"
  have h2 := claim_C1_send_retry_recreate ⟨true, true⟩ (fun _ => .ok (some 8)) 1234
    (.ok 42) ⟨[("15551234567", 5)], [(5, "15551234567")], []⟩
    (some 5) (some "15551234567") (some "Alice") "flood wait"
  constructor
  · exact ((h.1 "15551234567" "Alice" 5 rfl rfl rfl (by decide) (by decide) (by decide)
      (by decide)).2.2.1 8 (by rfl))
  · exact h2.2 (Or.inl (by decide))

end HyperWA
